import Mathlib

/-!
Shallow embedding of the `four_on_the_floor` pattern sequencer
(src/main.rs, src/model.rs, src/midi.rs, src/config.rs).

Conventions used throughout:
* Rust `f32` values appearing in the scheduling/dispatch paths are modelled
  as `ℚ`.  Every float the affected code compares or computes with is a
  small dyadic rational (multiples of 1/8 from `i as f32 / 8.0`, multiples
  of 1/4 from the 0.25 quantization, literals such as 0.5 or 2.5), all of
  which are exactly representable in `f32`, so rational arithmetic and
  rational equality coincide with the `f32` behaviour on these paths.
* `HashMap` is modelled as an association list with insert-replace
  semantics (`alist_insert`) and first-hit lookup (`alist_lookup`).
* Thread-pool dispatch is modelled by recording the submitted action in a
  trace; wall-clock measurements (`Instant::elapsed`) are an oracle
  parameter `elapsed_at`.
-/

/-- Rust `round` on a nonnegative-or-negative float: half away from zero. -/
def roundAway (q : ℚ) : ℤ :=
  if 0 ≤ q then ⌊q + 1/2⌋ else -⌊-q + 1/2⌋

/-- Association-list lookup, first hit wins (models `HashMap::get`). -/
def alist_lookup {κ α : Type} [DecidableEq κ] (m : List (κ × α)) (k : κ) : Option α :=
  match m with
  | [] => none
  | (k2, v) :: rest => if k2 = k then some v else alist_lookup rest k

/-- Association-list insert with replacement (models `HashMap::insert`). -/
def alist_insert {κ α : Type} [DecidableEq κ] (m : List (κ × α)) (k : κ) (v : α) :
    List (κ × α) :=
  (k, v) :: m.filter (fun e => !(decide (e.1 = k)))

/-- Association-list key removal (models `HashMap::remove`'s deletion part). -/
def alist_erase {κ α : Type} [DecidableEq κ] (m : List (κ × α)) (k : κ) :
    List (κ × α) :=
  m.filter (fun e => !(decide (e.1 = k)))

/-- The `Pattern` struct of src/model.rs: optional trigger fields, a list of
beat offsets, velocity and duration. -/
structure Pattern where
  sound : Option String
  loop_name : Option String
  midi_note : Option ℕ
  beats : List ℚ
  velocity : ℚ
  duration : ℚ
deriving DecidableEq, Repr

/-- The `PatternBuilder` struct of src/model.rs. -/
structure PatternBuilder where
  sound : Option String
  loop_name : Option String
  beats : List ℚ
  midi_note : Option ℕ
  velocity : ℚ
  duration : ℚ

/-- Rust `PatternBuilder::new`: defaults, velocity 100.0 and duration 0.25. -/
def PatternBuilder.new : PatternBuilder :=
  { sound := none, loop_name := none, beats := [], midi_note := none,
    velocity := 100, duration := 1/4 }

/-- Rust `PatternBuilder::sound`. -/
def PatternBuilder.setSound (b : PatternBuilder) (s : String) : PatternBuilder :=
  { b with sound := some s }

/-- Rust `PatternBuilder::loop_name`. -/
def PatternBuilder.setLoopName (b : PatternBuilder) (l : String) : PatternBuilder :=
  { b with loop_name := some l }

/-- Rust `PatternBuilder::beats`. -/
def PatternBuilder.setBeats (b : PatternBuilder) (bs : List ℚ) : PatternBuilder :=
  { b with beats := bs }

/-- Rust `PatternBuilder::midi_note`. -/
def PatternBuilder.setMidiNote (b : PatternBuilder) (n : ℕ) : PatternBuilder :=
  { b with midi_note := some n }

/-- Rust `PatternBuilder::velocity`. -/
def PatternBuilder.setVelocity (b : PatternBuilder) (v : ℚ) : PatternBuilder :=
  { b with velocity := v }

/-- Rust `PatternBuilder::duration`. -/
def PatternBuilder.setDuration (b : PatternBuilder) (d : ℚ) : PatternBuilder :=
  { b with duration := d }

/-- Rust `PatternBuilder::build`. -/
def PatternBuilder.build (b : PatternBuilder) : Pattern :=
  { sound := b.sound, loop_name := b.loop_name, beats := b.beats,
    midi_note := b.midi_note, velocity := b.velocity, duration := b.duration }

/-- Actions the scheduling loop performs at a tick: the Playhead write, the
work items submitted to the dispatch pool, and the drift-corrected sleep
(src/main.rs `play_pattern_with_soundbank`). -/
inductive TickAction where
  | writePlayhead (beat : ℚ)
  | dispatchMidi (note : ℕ) (velocity duration : ℚ)
  | dispatchSample (label : String) (velocity : ℚ)
  | dispatchLoop (label : String) (duration velocity : ℚ)
  | sleep (amount : ℚ)
deriving DecidableEq, Repr

/-- The trigger-selection branch of `play_pattern_with_soundbank`
(src/main.rs lines 289-306): `if let Some(note) = midi_note { .. }
else if let Some(label) = sound { .. } else if let Some(loop_name) = .. `. -/
def pattern_dispatch (p : Pattern) : Option TickAction :=
  match p.midi_note with
  | some note => some (.dispatchMidi note p.velocity p.duration)
  | none =>
    match p.sound with
    | some label => some (.dispatchSample label p.velocity)
    | none =>
      match p.loop_name with
      | some l => some (.dispatchLoop l p.duration p.velocity)
      | none => none

/-- The patterns matched at tick `i`: `pattern.beats.contains(&computed_current_beat)`
with `computed_current_beat = i as f32 / 8.0`. -/
def fired_patterns (patterns : List Pattern) (i : ℕ) : List Pattern :=
  patterns.filter (fun p => p.beats.contains ((i : ℚ) / 8))

/-- One iteration of the tick loop of `play_pattern_with_soundbank`:
write the Playhead, submit every matched pattern's trigger to the pool,
then sleep for the remaining time to the absolute target
`(i+1) * (60/bpm) / 8`, measured against `elapsed` since cycle start. -/
def tick_actions (patterns : List Pattern) (bpm : ℚ) (i : ℕ) (elapsed : ℚ) :
    List TickAction :=
  let computed_current_beat : ℚ := (i : ℚ) / 8
  let beat_duration : ℚ := 60 / bpm
  let eighth_beat_duration : ℚ := beat_duration / 8
  let dispatches := (fired_patterns patterns i).filterMap pattern_dispatch
  let target_time : ℚ := ((i : ℚ) + 1) * eighth_beat_duration
  let remaining := target_time - elapsed
  TickAction.writePlayhead computed_current_beat :: dispatches
    ++ (if 0 < remaining then [TickAction.sleep remaining] else [])

/-- Rust `play_pattern_with_soundbank` (src/main.rs lines 254-317): one cycle of
`loop_beats * 8` ticks.  `elapsed_at i` is the wall-clock time observed at
the end of tick `i`, measured from the cycle's `start_time`. -/
def play_pattern_with_soundbank (patterns : List Pattern) (bpm : ℚ)
    (loop_beats : ℕ) (elapsed_at : ℕ → ℚ) : List TickAction :=
  (List.range (loop_beats * 8)).flatMap (fun i => tick_actions patterns bpm i (elapsed_at i))

/-- Playhead value carried by a trace action, if any. -/
def playheadValue : TickAction → Option ℚ
  | .writePlayhead b => some b
  | _ => none

/-- Sleep amount carried by a trace action, if any. -/
def sleepValue : TickAction → Option ℚ
  | .sleep d => some d
  | _ => none

/-- Total time slept by a list of trace actions. -/
def sleep_total (l : List TickAction) : ℚ :=
  (l.filterMap sleepValue).sum

/-- The playback thread's `while running.load(Ordering::SeqCst)` loop
(src/main.rs lines 617-643): `flags` is the sequence of successive reads of
the shared running flag, one per cycle check; `c` counts cycles so the
pattern snapshot `patterns_at c` and the timing oracle `elapsed_at c` can
vary per cycle.  A `true` read runs one full cycle, a `false` read exits. -/
def playback_from (patterns_at : ℕ → List Pattern) (bpm : ℚ) (loop_beats : ℕ)
    (elapsed_at : ℕ → ℕ → ℚ) (c : ℕ) : List Bool → List TickAction
  | [] => []
  | f :: rest =>
    if f then
      play_pattern_with_soundbank (patterns_at c) bpm loop_beats (elapsed_at c)
        ++ playback_from patterns_at bpm loop_beats elapsed_at (c + 1) rest
    else []

/-- Nested helper of `generate_chord_patterns` (src/main.rs `add_chord_pattern`):
push one MIDI pattern per (note, beat) pair, note-major order. -/
def add_chord_pattern (patterns : List Pattern) (chord_notes : List ℕ)
    (chord_beats : List ℚ) (velocity duration : ℚ) : List Pattern :=
  patterns ++ chord_notes.flatMap (fun note => chord_beats.map (fun beat =>
    { sound := none, loop_name := none, midi_note := some note,
      beats := [beat], velocity := velocity, duration := duration }))

/-- Rust `generate_chord_patterns` (src/main.rs lines 320-361). -/
def generate_chord_patterns : List Pattern :=
  let c_sharp_m : List ℕ := [61, 64, 68]
  let f_sharp_m : List ℕ := [66, 69, 73]
  let a_maj : List ℕ := [69, 73, 76]
  let b_maj : List ℕ := [71, 75, 78]
  let c_sharp_beats : List ℚ := [1/4, 5/4, 7/4]
  let f_sharp_beats : List ℚ := [9/4, 13/4, 15/4]
  let a_beats : List ℚ := [17/4, 21/4, 23/4]
  let b_beats : List ℚ := [25/4, 13/2, 29/4, 31/4]
  add_chord_pattern
    (add_chord_pattern
      (add_chord_pattern
        (add_chord_pattern [] c_sharp_m c_sharp_beats 100 (1/10))
        f_sharp_m f_sharp_beats 100 (1/10))
      a_maj a_beats 100 (1/10))
    b_maj b_beats 100 (1/10)

/-- Rust `generate_combined_patterns` (src/main.rs lines 378-402): JSON patterns,
then two built-in loop patterns, then the chord patterns, then the MIDI
patterns. -/
def generate_combined_patterns (midi_pattern json_patterns : List Pattern) :
    List Pattern :=
  json_patterns
    ++ [ ((((PatternBuilder.new.setLoopName "dl-ethnic").setBeats [0, 4]).setDuration 2).build),
         ((((PatternBuilder.new.setLoopName "dl-ethnic").setBeats [5/4, 21/4]).setDuration (5/2)).build) ]
    ++ generate_chord_patterns
    ++ midi_pattern

/-- Rust `load_and_combine_patterns_from_content` (src/main.rs lines 512-523).
The serde parse of the file content is abstracted as its result: on `Ok`
the new JSON patterns are combined in, on parse error the combination is
rebuilt with an empty JSON pattern list. -/
def load_and_combine_patterns_from_content
    (parse_result : Except String (List Pattern)) (midi_pattern : List Pattern) :
    List Pattern :=
  match parse_result with
  | Except.ok new_patterns => generate_combined_patterns midi_pattern new_patterns
  | Except.error _ => generate_combined_patterns midi_pattern []

/-- One iteration of the background pattern-refresh thread
(src/main.rs lines 590-609): `read_result` is `none` when
`fs::read_to_string("patterns.json")` fails (the store is left alone) and
`some parse_result` when the read succeeds (the store is overwritten with
the combination built from the parse result). -/
def refresh_step (read_result : Option (Except String (List Pattern)))
    (midi_pattern store : List Pattern) : List Pattern :=
  match read_result with
  | some parse_result => load_and_combine_patterns_from_content parse_result midi_pattern
  | none => store

/-- Decoded audio data of one sample: interleaved PCM, channels, sample rate. -/
structure SampleData where
  samples : List ℤ
  channels : ℕ
  sample_rate : ℕ
deriving DecidableEq, Repr

/-- The `SoundBank` struct (src/main.rs lines 26-28). -/
structure SoundBank where
  data : List (String × SampleData)

/-- Rust `SoundBank::get`. -/
def SoundBank.get (b : SoundBank) (label : String) : Option SampleData :=
  alist_lookup b.data label

/-- The `LoopBank` struct (src/main.rs lines 93-95): samples, channels,
sample rate, and the native tempo parsed from the filename. -/
structure LoopBank where
  data : List (String × (SampleData × ℕ))

/-- Rust `LoopBank::get`. -/
def LoopBank.get (b : LoopBank) (label : String) : Option (SampleData × ℕ) :=
  alist_lookup b.data label

/-- Rust `str::split(sep)` for a `char` separator, on the character list of
the string: splitting never drops empty segments, and the empty string
yields one empty segment. -/
def splitCharList (sep : Char) : List Char → List (List Char)
  | [] => [[]]
  | c :: rest =>
    let r := splitCharList sep rest
    if c = sep then [] :: r
    else
      match r with
      | [] => [[c]]
      | h :: t => (c :: h) :: t

/-- Rust `str::split(sep).collect::<Vec<&str>>()`. -/
def rustSplit (sep : Char) (s : String) : List String :=
  (splitCharList sep s.data).map String.mk

/-- Rust `str::parse::<u32>`: an optional leading plus sign, then at least
one ASCII digit, value within `u32` range. -/
def rustParseU32 (s : String) : Option ℕ :=
  let s2 := match s.data with
    | '+' :: rest => rest
    | other => other
  if s2.length > 0 ∧ s2.all (fun c => c.isDigit) then
    let n := s2.foldl (fun acc c => acc * 10 + (c.toNat - 48)) 0
    if n < 2 ^ 32 then some n else none
  else none

/-- One `.wav` file handed to the loop loader: its filename stem and the
result of the external audio decode (`none` models a decode failure). -/
structure LoopFile where
  stem : String
  decode : Option SampleData
deriving Repr

/-- Rust `load_loop` (src/main.rs lines 97-119): decode the file, then split the
filename stem on underscores; exactly three parts are required, the first
parsed as a `u32` native tempo, the third taken as the loop's name.  Any
failure makes this file's load fail (`none`). -/
def load_loop (f : LoopFile) : Option (SampleData × ℕ × String) :=
  match f.decode with
  | none => none
  | some sd =>
    match rustSplit '_' f.stem with
    | [p0, _, p2] =>
      match rustParseU32 p0 with
      | some bpm => some (sd, bpm, p2)
      | none => none
    | _ => none

/-- Rust `LoopBank::new` (src/main.rs lines 122-162): each file is loaded
independently, failures are logged and skipped, successes are inserted into
the map keyed by the parsed name.  The worker pool's completion order is
abstracted as the list order. -/
def LoopBank.new (files : List LoopFile) : LoopBank :=
  ⟨files.foldl (fun data f =>
      match load_loop f with
      | some (sd, bpm, name) => alist_insert data name (sd, bpm)
      | none => data) []⟩

/-- Observable output of a dispatched work item executed on a pool worker. -/
inductive OutputEvent where
  | midiSend (bytes : List ℕ)
  | sleepWorker (seconds : ℚ)
  | audioPlay (sd : SampleData) (amplify : ℚ)
  | loopPlay (sd : SampleData) (amplify : ℚ) (take_millis : ℕ) (speed : ℚ)
  | warnNoSample (label : String)
  | warnNoLoop (label : String)
deriving DecidableEq, Repr

/-- Rust `beats_to_millis` (src/main.rs lines 169-173); the `as u64` cast of the
rounded nonnegative value saturates negatives to 0. -/
def beats_to_millis (beats : ℚ) (bpm : ℕ) : ℕ :=
  let minutes := beats / (bpm : ℚ)
  let millis := minutes * 60 * 1000
  (roundAway millis).toNat

/-- Rust `play_midi_note` (src/main.rs lines 210-231): clamp the velocity with
`.max(0.0).min(127.0)` and cast to `u8` (truncation toward zero), send Note
On, block this worker for `duration` seconds, send Note Off. -/
def play_midi_note (note : ℕ) (velocity duration : ℚ) : List OutputEvent :=
  let v : ℕ := (⌊min (max velocity 0) 127⌋).toNat
  [ .midiSend [0x90, note, v],
    .sleepWorker duration,
    .midiSend [0x80, note, 0] ]

/-- Rust `play_sound` (src/main.rs lines 233-250): look the label up in the
SoundBank; on a hit play the buffer amplified by `velocity / 100.0`, on a
miss log a warning and do nothing else. -/
def play_sound (label : String) (velocity : ℚ) (sound_bank : SoundBank) :
    List OutputEvent :=
  match sound_bank.get label with
  | some sd => [.audioPlay sd (velocity / 100)]
  | none => [.warnNoSample label]

/-- Rust `play_loop` (src/main.rs lines 175-204): look the label up in the
LoopBank; on a hit play the buffer amplified by `velocity / 100.0`,
truncated to `beats_to_millis duration project_bpm` milliseconds, sped up
by `project_bpm / original_bpm`; on a miss log a warning and do nothing. -/
def play_loop (label : String) (duration velocity : ℚ) (loop_bank : LoopBank)
    (project_bpm : ℕ) : List OutputEvent :=
  match loop_bank.get label with
  | some (sd, original_bpm) =>
    let playback_speed : ℚ := (project_bpm : ℚ) / (original_bpm : ℚ)
    let duration_millis := beats_to_millis duration project_bpm
    [.loopPlay sd (velocity / 100) duration_millis playback_speed]
  | none => [.warnNoLoop label]

/-- Execution of one submitted work item by a pool worker
(the closures passed to `pool.execute` in `play_pattern_with_soundbank`). -/
def run_dispatch (sound_bank : SoundBank) (loop_bank : LoopBank)
    (project_bpm : ℕ) : TickAction → List OutputEvent
  | .dispatchMidi note velocity duration => play_midi_note note velocity duration
  | .dispatchSample label velocity => play_sound label velocity sound_bank
  | .dispatchLoop label duration velocity =>
      play_loop label duration velocity loop_bank project_bpm
  | _ => []

/-- Execution of a list of submitted work items, each independently. -/
def run_all (sound_bank : SoundBank) (loop_bank : LoopBank) (project_bpm : ℕ)
    (actions : List TickAction) : List OutputEvent :=
  actions.flatMap (run_dispatch sound_bank loop_bank project_bpm)

/-- The fields of a `Pattern` as they appear in one JSON object: the outer
`Option` is presence of the field in the document, the payload is its
parsed value (for the trigger fields the payload is itself optional,
mirroring JSON `null`). -/
structure PatternFields where
  sound : Option (Option String)
  loop_name : Option (Option String)
  midi_note : Option (Option ℕ)
  beats : Option (List ℚ)
  velocity : Option ℚ
  duration : Option ℚ
deriving Repr

/-- The `Deserialize` implementation derived by serde for `Pattern`
(src/model.rs lines 3-11).  Serde's derive gives `Option` fields the value
`None` when absent, while fields of non-`Option` type without a
`#[serde(default)]` attribute — here `beats`, `velocity` and `duration` —
make the whole deserialization fail with a missing-field error. -/
def deserialize_pattern (f : PatternFields) : Except String Pattern :=
  match f.beats with
  | none => Except.error "missing field beats"
  | some beats =>
    match f.velocity with
    | none => Except.error "missing field velocity"
    | some velocity =>
      match f.duration with
      | none => Except.error "missing field duration"
      | some duration =>
        Except.ok { sound := f.sound.getD none, loop_name := f.loop_name.getD none,
                    midi_note := f.midi_note.getD none, beats := beats,
                    velocity := velocity, duration := duration }

/-- Kinds of track events the extraction in src/midi.rs inspects.  `key`
and `vel` are midly `u7` values. -/
inductive TrackEventKind where
  | noteOn (key : Fin 128) (vel : Fin 128)
  | noteOff (key : Fin 128) (vel : Fin 128)
  | trackName (name : String)
  | other
deriving Repr

/-- One MIDI track event: a delta time in ticks and its kind. -/
structure TrackEvent where
  delta : ℕ
  kind : TrackEventKind
deriving Repr

/-- State threaded through the extraction: the `active_notes` map from key
to (start seconds, velocity) and the accumulated patterns. -/
structure ExtractState where
  active_notes : List (ℕ × ℚ × ℚ)
  patterns : List Pattern

/-- The `handle_note_off` closure of src/midi.rs (lines 37-57): pop the
key's entry from `active_notes`; if present, quantize the note's start to
the nearest 0.25 beat and, when the quantized start lies in
`[start_beat, end_beat)`, append a MIDI pattern whose single beat is the
quantized start shifted by `start_beat`, with velocity rescaled from MIDI
range to `[0, 100]`. -/
def handle_note_off (bpm start_beat end_beat : ℚ) (key : ℕ)
    (current_seconds : ℚ) (st : ExtractState) : ExtractState :=
  match alist_lookup st.active_notes key with
  | some (start_time, velocity) =>
    let notes2 := alist_erase st.active_notes key
    let duration := current_seconds - start_time
    let beat_start := start_time / (60 / bpm)
    let increment : ℚ := 1/4
    let rounded_beat_start := (roundAway (beat_start / increment) : ℚ) * increment
    if start_beat ≤ rounded_beat_start ∧ rounded_beat_start < end_beat then
      { active_notes := notes2,
        patterns := st.patterns ++
          [{ sound := none, loop_name := none, midi_note := some key,
             beats := [rounded_beat_start - start_beat],
             velocity := velocity / 127 * 100, duration := duration }] }
    else { active_notes := notes2, patterns := st.patterns }
  | none => st

/-- One step of the event loop of src/midi.rs (lines 83-113): advance
`current_time` by the event's delta and handle NoteOn (velocity > 0 starts
a note, velocity 0 is treated as NoteOff) and NoteOff events. -/
def process_event (bpm tpb start_beat end_beat : ℚ)
    (acc : ℕ × ExtractState) (e : TrackEvent) : ℕ × ExtractState :=
  let current_time := acc.1 + e.delta
  let seconds_per_tick := 60 / (bpm * tpb)
  let current_seconds := (current_time : ℚ) * seconds_per_tick
  match e.kind with
  | .noteOn key vel =>
    if 0 < vel.val then
      (current_time,
       { acc.2 with active_notes :=
           alist_insert acc.2.active_notes key.val (current_seconds, (vel.val : ℚ)) })
    else
      (current_time, handle_note_off bpm start_beat end_beat key.val current_seconds acc.2)
  | .noteOff key _ =>
      (current_time, handle_note_off bpm start_beat end_beat key.val current_seconds acc.2)
  | _ => (current_time, acc.2)

/-- Event processing of one matched track; `current_time` restarts at 0 for
each track, while the extraction state persists across tracks. -/
def process_track_events (bpm tpb start_beat end_beat : ℚ)
    (events : List TrackEvent) (st : ExtractState) : ExtractState :=
  (events.foldl (process_event bpm tpb start_beat end_beat) (0, st)).2

/-- The track-name scan of src/midi.rs (lines 61-79): a track is processed
exactly when some TrackName meta event equals the requested name. -/
def track_found (track : List TrackEvent) (tname : String) : Bool :=
  track.any (fun e => match e.kind with
    | .trackName n => n == tname
    | _ => false)

/-- Rust `read_midi_and_extract_pattern` (src/midi.rs lines 9-117), with the
file read and SMF parse abstracted into the track list and the
ticks-per-beat header value `tpb`. -/
def read_midi_and_extract_pattern (tname : String) (bpm tpb : ℚ)
    (start_beat end_beat : ℚ) (tracks : List (List TrackEvent)) : List Pattern :=
  (tracks.foldl (fun st track =>
      if track_found track tname then
        process_track_events bpm tpb start_beat end_beat track st
      else st)
    { active_notes := [], patterns := [] }).patterns

/-- Invariant on the `active_notes` map: every recorded velocity came from
a `NoteOn` with midly `u7` velocity strictly above zero. -/
def notes_ok (notes : List (ℕ × ℚ × ℚ)) : Prop :=
  ∀ e ∈ notes, 0 < e.2.2 ∧ e.2.2 ≤ 127

/-- Shape of every pattern the MIDI extraction emits: a pure-MIDI trigger,
a singleton beat on the quarter-beat grid inside the requested window, and
a velocity rescaled from a positive `u7` value. -/
def extracted_pattern_ok (start_beat end_beat : ℚ) (p : Pattern) : Prop :=
  p.sound = none ∧ p.loop_name = none ∧ (∃ k, p.midi_note = some k) ∧
  (∃ b, p.beats = [b] ∧ 0 ≤ b ∧ b < end_beat - start_beat ∧
    ∃ m : ℤ, b + start_beat = (m : ℚ) / 4) ∧
  (∃ v : ℚ, 0 < v ∧ v ≤ 127 ∧ p.velocity = v / 127 * 100) ∧
  0 < p.velocity ∧ p.velocity ≤ 100

/-- A one-beat pattern used to instantiate universally quantified claims. -/
def q_unit : Pattern :=
  { sound := none, loop_name := none, midi_note := some 60,
    beats := [1], velocity := 100, duration := 1/4 }

/-- A sample pattern on beats 0.0 and 0.5, for the bpm=120 scenario. -/
def r_half : Pattern :=
  { sound := some "bd", loop_name := none, midi_note := none,
    beats := [0, 1/2], velocity := 100, duration := 1/4 }

/-- Decoded PCM stub for the loop-directory scenario. -/
def demo_samples : SampleData := ⟨[0, 0], 2, 44100⟩

/-- A valid loop file named `120_4_groove.wav`. -/
def demo_loop_file : LoopFile := ⟨"120_4_groove", some demo_samples⟩

/-- A file that decodes fine but has a malformed (one-part) stem. -/
def demo_malformed_file : LoopFile := ⟨"badname", some demo_samples⟩

/-- The loop directory of the spec's scenario: one valid
`120_4_groove.wav` and one corrupt `bad.wav` whose decode fails. -/
def demo_loop_dir : List LoopFile :=
  [demo_loop_file, ⟨"bad", none⟩]

/-- A one-note MIDI track used to instantiate the extraction claims. -/
def demo_track : List TrackEvent :=
  [⟨0, .trackName "lead"⟩,
   ⟨0, .noteOn ⟨60, by norm_num⟩ ⟨100, by norm_num⟩⟩,
   ⟨480, .noteOff ⟨60, by norm_num⟩ ⟨0, by norm_num⟩⟩]


/-!  Theorems settling the claims.  -/

/-- C1 (counterexample): the claim fails for a parse failure — starting
from an empty installed collection, a refresh attempt whose read succeeds
but whose JSON parse fails replaces the store (with the built-in
combination over an empty JSON list) instead of retaining it. -/
theorem C1_parse_failure_replaces_store :
    refresh_step (some (Except.error "bad edit")) [] [] ≠ ([] : List Pattern) := by
  decide

/-- C1 (amended): when the read of the external pattern source fails the
previous collection is retained unchanged, but when the read succeeds and
the JSON parse fails the store is replaced with the combination built from
an empty JSON pattern list (built-in loop patterns, chord patterns and the
MIDI patterns). -/
theorem C1_refresh_behaviour (midi store : List Pattern) (e : String) :
    refresh_step none midi store = store ∧
    refresh_step (some (Except.error e)) midi store
      = generate_combined_patterns midi [] :=
  ⟨rfl, rfl⟩

/-- C3: trigger selection dispatches at most one action per matched
pattern (`pattern_dispatch` is `Option`-valued), with fixed precedence
MIDI note over sample over loop, and a pattern with none of the three
trigger fields set dispatches nothing. -/
theorem C3_trigger_precedence (p : Pattern) :
    (∀ note, p.midi_note = some note →
      pattern_dispatch p = some (.dispatchMidi note p.velocity p.duration)) ∧
    (∀ label, p.midi_note = none → p.sound = some label →
      pattern_dispatch p = some (.dispatchSample label p.velocity)) ∧
    (∀ l, p.midi_note = none → p.sound = none → p.loop_name = some l →
      pattern_dispatch p = some (.dispatchLoop l p.duration p.velocity)) ∧
    (p.midi_note = none → p.sound = none → p.loop_name = none →
      pattern_dispatch p = none) := by
  refine ⟨?_, ?_, ?_, ?_⟩ <;> intros <;> simp [pattern_dispatch, *]

/-- C3 (witness): the four precedence branches at concrete patterns; in
particular a pattern carrying all three trigger fields plays only the MIDI
note. -/
theorem C3_trigger_precedence_witness :
    pattern_dispatch ⟨some "bd", some "gr", some 60, [], 100, 1/4⟩
      = some (.dispatchMidi 60 100 (1/4)) ∧
    pattern_dispatch ⟨some "bd", some "gr", none, [], 100, 1/4⟩
      = some (.dispatchSample "bd" 100) ∧
    pattern_dispatch ⟨none, some "gr", none, [], 100, 1/4⟩
      = some (.dispatchLoop "gr" (1/4) 100) ∧
    pattern_dispatch ⟨none, none, none, [], 100, 1/4⟩
      = none :=
  ⟨(C3_trigger_precedence _).1 60 rfl,
   (C3_trigger_precedence _).2.1 "bd" rfl rfl,
   (C3_trigger_precedence _).2.2.1 "gr" rfl rfl rfl,
   (C3_trigger_precedence _).2.2.2 rfl rfl rfl⟩

/-- C8: for every rational velocity, `play_midi_note` sends Note On with
the velocity byte clamped into `[0, 127]` (the clamp of the input,
truncated to an integer byte), then blocks its own worker for `duration`
seconds, then sends Note Off for the same pitch; MIDI-range integer
velocities pass through the clamp unchanged. -/
theorem C8_midi_note_contract (note : ℕ) (velocity duration : ℚ) :
    play_midi_note note velocity duration =
      [OutputEvent.midiSend [144, note, (⌊min (max velocity 0) 127⌋).toNat],
       OutputEvent.sleepWorker duration,
       OutputEvent.midiSend [128, note, 0]] ∧
    (⌊min (max velocity 0) 127⌋).toNat ≤ 127 ∧
    (∀ n : Fin 128, (⌊min (max ((n : ℕ) : ℚ) 0) 127⌋).toNat = (n : ℕ)) := by
  refine ⟨rfl, ?_, ?_⟩
  · have h : (⌊min (max velocity 0) 127⌋ : ℤ) ≤ 127 := by
      have := Int.floor_le_floor (α := ℚ) (min_le_right (max velocity 0) 127)
      simpa using this
    omega
  · intro n
    have h0 : (0 : ℚ) ≤ ((n : ℕ) : ℚ) := by positivity
    have h1 : ((n : ℕ) : ℚ) ≤ 127 := by
      exact_mod_cast Nat.lt_succ_iff.mp n.isLt
    rw [max_eq_left h0, min_eq_left h1]
    simp

/-- C9 (counterexample): deserializing a pattern object whose `velocity`
and `duration` fields are absent does not produce the default pattern —
serde fails the parse with a missing-field error instead of applying
defaults. -/
theorem C9_missing_fields_fail_parse :
    deserialize_pattern ⟨none, none, none, some [], none, none⟩
      ≠ Except.ok PatternBuilder.new.build :=
  fun h => Except.noConfusion h

/-- C9 (amended): builder construction defaults `velocity` to 100.0 and
`duration` to 0.25 (also when other fields are set); parsing persisted
definitions applies no such defaults — a missing `velocity` or `duration`
field fails the whole parse, the optional trigger fields default to
`None`, and a successful parse takes `velocity` and `duration` verbatim
from the document. -/
theorem C9_defaults (s l : String) (bs : List ℚ) :
    (PatternBuilder.new.build.velocity = 100 ∧
     PatternBuilder.new.build.duration = 1/4) ∧
    (((PatternBuilder.new.setSound s).setBeats bs).build.velocity = 100 ∧
     ((PatternBuilder.new.setSound s).setBeats bs).build.duration = 1/4) ∧
    (((PatternBuilder.new.setLoopName l).build.velocity = 100 ∧
      (PatternBuilder.new.setLoopName l).build.duration = 1/4)) ∧
    (∀ so lo mo b d, deserialize_pattern ⟨so, lo, mo, some b, none, d⟩
        = Except.error "missing field velocity") ∧
    (∀ so lo mo b v, deserialize_pattern ⟨so, lo, mo, some b, some v, none⟩
        = Except.error "missing field duration") ∧
    (∀ so lo mo b v d, deserialize_pattern ⟨so, lo, mo, some b, some v, some d⟩
        = Except.ok { sound := Option.getD so none, loop_name := Option.getD lo none,
                      midi_note := Option.getD mo none, beats := b,
                      velocity := v, duration := d }) :=
  ⟨⟨rfl, rfl⟩, ⟨rfl, rfl⟩, ⟨rfl, rfl⟩,
   fun _ _ _ _ _ => rfl, fun _ _ _ _ _ => rfl, fun _ _ _ _ _ _ => rfl⟩

lemma pattern_dispatch_playheadValue (p : Pattern) (a : TickAction)
    (h : pattern_dispatch p = some a) : playheadValue a = none := by
  rcases p with ⟨s, l, m, b, v, d⟩
  cases m <;> cases s <;> cases l <;>
    simp [pattern_dispatch] at h <;> subst h <;> rfl

lemma pattern_dispatch_sleepValue (p : Pattern) (a : TickAction)
    (h : pattern_dispatch p = some a) : sleepValue a = none := by
  rcases p with ⟨s, l, m, b, v, d⟩
  cases m <;> cases s <;> cases l <;>
    simp [pattern_dispatch] at h <;> subst h <;> rfl

lemma dispatches_filterMap_playhead (patterns : List Pattern) (i : ℕ) :
    ((fired_patterns patterns i).filterMap pattern_dispatch).filterMap
      playheadValue = [] := by
  rw [List.filterMap_eq_nil_iff]
  intro a ha
  rw [List.mem_filterMap] at ha
  obtain ⟨p, _, hp⟩ := ha
  exact pattern_dispatch_playheadValue p a hp

lemma dispatches_filterMap_sleep (patterns : List Pattern) (i : ℕ) :
    ((fired_patterns patterns i).filterMap pattern_dispatch).filterMap
      sleepValue = [] := by
  rw [List.filterMap_eq_nil_iff]
  intro a ha
  rw [List.mem_filterMap] at ha
  obtain ⟨p, _, hp⟩ := ha
  exact pattern_dispatch_sleepValue p a hp

lemma tick_actions_filterMap_playhead (patterns : List Pattern) (bpm : ℚ)
    (i : ℕ) (elapsed : ℚ) :
    (tick_actions patterns bpm i elapsed).filterMap playheadValue
      = [(i : ℚ) / 8] := by
  unfold tick_actions
  simp only [List.filterMap_cons, List.filterMap_append, playheadValue,
    dispatches_filterMap_playhead]
  by_cases h : 0 < ((i : ℚ) + 1) * (60 / bpm / 8) - elapsed <;>
    simp [h, playheadValue]

lemma tick_actions_sleep_total (patterns : List Pattern) (bpm : ℚ)
    (i : ℕ) (elapsed : ℚ) :
    sleep_total (tick_actions patterns bpm i elapsed)
      = max 0 (((i : ℚ) + 1) * (60 / bpm / 8) - elapsed) := by
  unfold sleep_total tick_actions
  simp only [List.filterMap_cons, List.filterMap_append, sleepValue,
    dispatches_filterMap_sleep]
  by_cases h : 0 < ((i : ℚ) + 1) * (60 / bpm / 8) - elapsed
  · simp only [if_pos h, List.filterMap_cons, sleepValue]
    simp [max_eq_right (le_of_lt h)]
  · simp only [if_neg h, List.filterMap_nil]
    simp [max_eq_left (le_of_not_lt h)]

lemma flatMap_single {α β : Type} (l : List α) (f : α → β) :
    (l.flatMap fun x => [f x]) = l.map f := by
  induction l with
  | nil => rfl
  | cons x xs ih => simp [ih]

lemma cycle_playheads (patterns : List Pattern) (bpm : ℚ) (loop_beats : ℕ)
    (elapsed_at : ℕ → ℚ) :
    (play_pattern_with_soundbank patterns bpm loop_beats elapsed_at).filterMap
        playheadValue
      = (List.range (loop_beats * 8)).map (fun i : ℕ => (i : ℚ) / 8) := by
  unfold play_pattern_with_soundbank
  rw [List.filterMap_flatMap]
  rw [show (fun i => (tick_actions patterns bpm i (elapsed_at i)).filterMap
        playheadValue) = (fun i : ℕ => [(i : ℚ) / 8]) from
      funext fun i => tick_actions_filterMap_playhead patterns bpm i (elapsed_at i)]
  exact flatMap_single _ _

/-- C2: a cycle with parameters `bpm` and `loop_beats` performs exactly
`loop_beats * 8` Playhead writes, one per tick and in tick order with
value `i / 8`; within every tick the Playhead write precedes all
dispatches (it heads the tick and is the tick's only Playhead write); and
every tick sleeps a total of `max 0 ((i+1) * (60/bpm) / 8 - elapsed)`
where `elapsed` is measured from the absolute cycle start. -/
theorem C2_drift_corrected_schedule (patterns : List Pattern) (bpm : ℚ)
    (loop_beats : ℕ) (elapsed_at : ℕ → ℚ) :
    (play_pattern_with_soundbank patterns bpm loop_beats elapsed_at).filterMap
        playheadValue
      = (List.range (loop_beats * 8)).map (fun i : ℕ => (i : ℚ) / 8) ∧
    ((play_pattern_with_soundbank patterns bpm loop_beats elapsed_at).filterMap
        playheadValue).length = loop_beats * 8 ∧
    (∀ i : ℕ, ∃ rest, tick_actions patterns bpm i (elapsed_at i)
        = TickAction.writePlayhead ((i : ℚ) / 8) :: rest ∧
        rest.filterMap playheadValue = []) ∧
    (∀ i : ℕ, sleep_total (tick_actions patterns bpm i (elapsed_at i))
        = max 0 (((i : ℚ) + 1) * (60 / bpm) / 8 - elapsed_at i)) := by
  refine ⟨cycle_playheads patterns bpm loop_beats elapsed_at, ?_, ?_, ?_⟩
  · rw [cycle_playheads patterns bpm loop_beats elapsed_at]
    simp
  · intro i
    refine ⟨(fired_patterns patterns i).filterMap pattern_dispatch
      ++ (if 0 < ((i : ℚ) + 1) * (60 / bpm / 8) - elapsed_at i
          then [TickAction.sleep (((i : ℚ) + 1) * (60 / bpm / 8) - elapsed_at i)]
          else []), rfl, ?_⟩
    simp only [List.filterMap_append, dispatches_filterMap_playhead]
    by_cases h : 0 < ((i : ℚ) + 1) * (60 / bpm / 8) - elapsed_at i <;>
      simp [h, playheadValue]
  · intro i
    rw [tick_actions_sleep_total patterns bpm i (elapsed_at i), mul_div_assoc]

/-- C5: the running flag is read once per cycle; the playback trace equals
the concatenation of the full cycles run while the flag read `true`
(`takeWhile`), so a cycle that has started always runs to completion
(every cycle in the trace is a full `play_pattern_with_soundbank` cycle of
`loop_beats * 8` ticks) and no tick of any cycle after the `false` read
ever executes. -/
theorem C5_cancellation_between_cycles (patterns_at : ℕ → List Pattern)
    (bpm : ℚ) (loop_beats : ℕ) (elapsed_at : ℕ → ℕ → ℚ) (flags : List Bool)
    (c : ℕ) :
    playback_from patterns_at bpm loop_beats elapsed_at c flags
      = (List.range (flags.takeWhile id).length).flatMap
          (fun j => play_pattern_with_soundbank (patterns_at (c + j)) bpm
            loop_beats (elapsed_at (c + j))) ∧
    (∀ c2 : ℕ, ((play_pattern_with_soundbank (patterns_at c2) bpm loop_beats
        (elapsed_at c2)).filterMap playheadValue).length = loop_beats * 8) := by
  constructor
  · induction flags generalizing c with
    | nil => rfl
    | cons f rest ih =>
      cases f with
      | false => simp [playback_from]
      | true =>
        simp only [playback_from, if_pos, List.takeWhile_cons, id]
        rw [ih (c + 1)]
        rw [show (true :: rest.takeWhile id).length
            = (rest.takeWhile id).length + 1 from rfl]
        rw [List.range_succ_eq_map, List.flatMap_cons, List.flatMap_map]
        congr 1
        exact List.flatMap_congr (fun j _ => by
          rw [show c + 1 + j = c + (j + 1) by omega])
  · intro c2
    rw [cycle_playheads]
    simp

lemma beats_one_contains (q : List ℚ) (hq : q = [1]) (j : ℕ) :
    (q.contains ((j : ℚ) / 8)) = true ↔ j = 8 := by
  subst hq
  simp only [List.contains_cons, List.contains_nil, Bool.or_false, beq_iff_eq]
  constructor
  · intro h
    field_simp at h
    exact_mod_cast h
  · rintro rfl; norm_num

lemma filter_range_decide_eight (n : ℕ) (hn : 9 ≤ n) :
    (List.range n).filter (fun j => decide (j = 8)) = [8] := by
  induction n, hn using Nat.le_induction with
  | base => decide
  | succ n hn ih =>
    rw [List.range_succ, List.filter_append, ih]
    simp [show ¬ n = 8 by omega]

lemma filter_range_eq_eight (n : ℕ) (hn : 9 ≤ n) (pr : ℕ → Bool)
    (hp : ∀ j, pr j = true ↔ j = 8) :
    (List.range n).filter pr = [8] := by
  have hpr : ∀ j, pr j = decide (j = 8) := by
    intro j
    by_cases h8 : j = 8
    · subst h8
      simp [(hp 8).mpr rfl]
    · have hne : pr j = false := by
        cases hj : pr j with
        | true => exact absurd ((hp j).mp hj) h8
        | false => rfl
      simp [h8, hne]
  rw [List.filter_congr (fun j _ => hpr j)]
  exact filter_range_decide_eight n hn

/-- C4: a pattern is dispatched at tick `i` exactly when its `beats` list
contains the value `i / 8` under exact rational equality; a pattern with
`beats = {1.0}` fires exactly once per cycle (at tick 8, the unique tick
with `beat_i = 1.0`, available whenever the cycle spans at least 2 beats);
and in the bpm-independent scenario with `loop_beats = 1` a pattern with
`beats = {0.0, 0.5}` fires at tick 0 and tick 4 and at no other tick. -/
theorem C4_exact_beat_match (patterns : List Pattern) (p q r : Pattern)
    (i loop_beats : ℕ) (hq : q.beats = [1]) (hlb : 2 ≤ loop_beats)
    (hr : r.beats = [0, 1/2]) :
    (p ∈ fired_patterns patterns i ↔ p ∈ patterns ∧ ((i : ℚ) / 8) ∈ p.beats) ∧
    (List.range (loop_beats * 8)).filter
        (fun j : ℕ => q.beats.contains ((j : ℚ) / 8)) = [8] ∧
    (List.range (1 * 8)).filter
        (fun j : ℕ => r.beats.contains ((j : ℚ) / 8)) = [0, 4] := by
  refine ⟨?_, ?_, ?_⟩
  · simp [fired_patterns, List.mem_filter]
  · exact filter_range_eq_eight (loop_beats * 8)
      (le_trans (by norm_num) (Nat.mul_le_mul_right 8 hlb))
      _ (beats_one_contains q.beats hq)
  · rw [hr]
    norm_num [List.range_succ, List.filter_append, List.filter, List.contains]

/-- C4 (witness): the exact-match characterization at tick 8, the
`beats = {1.0}` cycle count with `loop_beats = 2`, and the
`beats = {0.0, 0.5}` scenario, at concrete patterns. -/
theorem C4_exact_beat_match_witness :
    (q_unit ∈ fired_patterns [r_half] 8 ↔
      q_unit ∈ [r_half] ∧ ((8 : ℕ) : ℚ) / 8 ∈ q_unit.beats) ∧
    (List.range (2 * 8)).filter
        (fun j : ℕ => q_unit.beats.contains ((j : ℚ) / 8)) = [8] ∧
    (List.range (1 * 8)).filter
        (fun j : ℕ => r_half.beats.contains ((j : ℚ) / 8)) = [0, 4] :=
  C4_exact_beat_match [r_half] q_unit q_unit r_half 8 2 rfl (by norm_num) rfl

/-- C6: an event whose trigger label misses its bank produces exactly one
warning and is dropped (`play_sound` / `play_loop` return the warning as
their only effect, total functions that cannot abort the loop); work items
are executed independently, so in the spec's scenario a tick matching
pattern A (sample "missing") and pattern B (sample "bd") still plays B
while A only warns. -/
theorem C6_missing_label_dropped (sb : SoundBank) (lb : LoopBank)
    (project_bpm : ℕ) (label : String) (v d : ℚ) (sd : SampleData)
    (hs : sb.get label = none) (hl : lb.get label = none)
    (hmiss : sb.get "missing" = none) (hbd : sb.get "bd" = some sd)
    (vA dA vB dB : ℚ) :
    play_sound label v sb = [.warnNoSample label] ∧
    play_loop label d v lb project_bpm = [.warnNoLoop label] ∧
    (∀ (a : TickAction) (rest : List TickAction),
      run_all sb lb project_bpm (a :: rest)
        = run_dispatch sb lb project_bpm a ++ run_all sb lb project_bpm rest) ∧
    run_all sb lb project_bpm
        ((fired_patterns [⟨some "missing", none, none, [0], vA, dA⟩,
                          ⟨some "bd", none, none, [0], vB, dB⟩] 0).filterMap
          pattern_dispatch)
      = [.warnNoSample "missing", .audioPlay sd (vB / 100)] := by
  refine ⟨?_, ?_, ?_, ?_⟩
  · simp [play_sound, hs]
  · simp [play_loop, hl]
  · intro a rest
    simp [run_all]
  · have h0 : ((0 : ℕ) : ℚ) / 8 = 0 := by norm_num
    simp [fired_patterns, h0, pattern_dispatch, run_all, run_dispatch,
      play_sound, hmiss, hbd]

/-- C6 (witness): with a SoundBank holding only "bd", dispatching the
sample "missing" yields exactly the warning. -/
theorem C6_missing_label_dropped_witness :
    play_sound "missing" 100 ⟨[("bd", demo_samples)]⟩
      = [.warnNoSample "missing"] :=
  (C6_missing_label_dropped ⟨[("bd", demo_samples)]⟩ ⟨[]⟩ 120 "missing"
    100 (1/4) demo_samples (by decide) rfl (by decide) (by decide)
    100 (1/4) 100 (1/4)).1

/-- C7: loading succeeds for every file whose decode succeeds and whose
stem splits on underscores into exactly three parts with the first
parseable as a `u32` — the result is keyed by the third part with the
first stored as native tempo; any single file whose load fails (decode
failure or malformed name) is omitted from the repository without
affecting the load of the remaining files; and the two-file scenario
directory (valid `120_4_groove.wav`, corrupt `bad.wav`) yields a
repository whose only key is "groove", mapped to native tempo 120. -/
theorem C7_loop_repository (f g : LoopFile) (sd : SampleData) (bpm : ℕ)
    (p0 p1 p2 : String) (pre post : List LoopFile)
    (hdec : f.decode = some sd)
    (hsp : rustSplit '_' f.stem = [p0, p1, p2])
    (hparse : rustParseU32 p0 = some bpm)
    (hfail : load_loop g = none) :
    load_loop f = some (sd, bpm, p2) ∧
    LoopBank.new (pre ++ g :: post) = LoopBank.new (pre ++ post) ∧
    (LoopBank.new demo_loop_dir).data.map Prod.fst = ["groove"] ∧
    (LoopBank.new demo_loop_dir).get "groove" = some (demo_samples, 120) := by
  refine ⟨?_, ?_, by decide, by decide⟩
  · simp [load_loop, hdec, hsp, hparse]
  · unfold LoopBank.new
    congr 1
    rw [List.foldl_append, List.foldl_append, List.foldl_cons]
    congr 1
    simp only [hfail]

/-- C7 (witness): the valid `120_4_groove.wav` loads with tempo 120 and
name "groove"; a decodable file with the malformed stem `badname` is
omitted from a directory containing it without affecting the valid file;
and the two-file scenario repository contains exactly "groove". -/
theorem C7_loop_repository_witness :
    load_loop demo_loop_file = some (demo_samples, 120, "groove") ∧
    LoopBank.new ([demo_loop_file] ++ demo_malformed_file :: [])
      = LoopBank.new ([demo_loop_file] ++ []) ∧
    (LoopBank.new demo_loop_dir).data.map Prod.fst = ["groove"] ∧
    (LoopBank.new demo_loop_dir).get "groove" = some (demo_samples, 120) :=
  C7_loop_repository demo_loop_file demo_malformed_file demo_samples 120
    "120" "4" "groove" [demo_loop_file] [] rfl (by decide) (by decide)
    (by decide)

lemma alist_lookup_mem {κ α : Type} [DecidableEq κ] (m : List (κ × α))
    (k : κ) (v : α) (h : alist_lookup m k = some v) : (k, v) ∈ m := by
  induction m with
  | nil => exact absurd h (by simp [alist_lookup])
  | cons e rest ih =>
    obtain ⟨k2, v2⟩ := e
    by_cases hk : k2 = k
    · subst hk
      rw [alist_lookup, if_pos rfl] at h
      injection h with h2
      subst h2
      exact List.mem_cons_self _ _
    · rw [alist_lookup, if_neg hk] at h
      exact List.mem_cons_of_mem _ (ih h)

lemma notes_ok_erase (m : List (ℕ × ℚ × ℚ)) (k : ℕ) (h : notes_ok m) :
    notes_ok (alist_erase m k) := by
  intro e he
  exact h e (List.mem_of_mem_filter he)

lemma notes_ok_insert (m : List (ℕ × ℚ × ℚ)) (k : ℕ) (st v : ℚ)
    (hm : notes_ok m) (hv : 0 < v ∧ v ≤ 127) :
    notes_ok (alist_insert m k (st, v)) := by
  intro e he
  rcases List.mem_cons.mp he with h | h
  · subst h
    exact hv
  · exact hm e (List.mem_of_mem_filter h)

lemma handle_note_off_ok (bpm sb eb : ℚ) (key : ℕ) (cs : ℚ)
    (st : ExtractState) (hn : notes_ok st.active_notes)
    (hp : ∀ p ∈ st.patterns, extracted_pattern_ok sb eb p) :
    notes_ok (handle_note_off bpm sb eb key cs st).active_notes ∧
    ∀ p ∈ (handle_note_off bpm sb eb key cs st).patterns,
      extracted_pattern_ok sb eb p := by
  unfold handle_note_off
  cases hl : alist_lookup st.active_notes key with
  | none => exact ⟨hn, hp⟩
  | some sv =>
    obtain ⟨start_time, velocity⟩ := sv
    dsimp only
    have hv : 0 < velocity ∧ velocity ≤ 127 :=
      hn _ (alist_lookup_mem _ _ _ hl)
    set rounded : ℚ :=
      ((roundAway ((start_time / (60 / bpm)) / (1/4)) : ℤ) : ℚ) * (1/4) with hr
    by_cases hif : sb ≤ rounded ∧ rounded < eb
    · rw [if_pos hif]
      refine ⟨notes_ok_erase _ _ hn, ?_⟩
      intro p hmem
      rcases List.mem_append.mp hmem with h | h
      · exact hp p h
      · rw [List.mem_singleton] at h
        subst h
        refine ⟨rfl, rfl, ⟨key, rfl⟩, ?_, ?_, ?_, ?_⟩
        · refine ⟨rounded - sb, rfl, ?_, ?_, ?_⟩
          · exact sub_nonneg.mpr hif.1
          · exact sub_lt_sub_right hif.2 sb
          · refine ⟨roundAway ((start_time / (60 / bpm)) / (1/4)), ?_⟩
            rw [sub_add_cancel, hr]
            ring
        · exact ⟨velocity, hv.1, hv.2, rfl⟩
        · have h1 := hv.1
          positivity
        · have h2 : velocity / 127 * 100 ≤ 127 / 127 * 100 := by
            gcongr
            exact hv.2
          calc velocity / 127 * 100 ≤ 127 / 127 * 100 := h2
            _ = 100 := by norm_num
    · rw [if_neg hif]
      exact ⟨notes_ok_erase _ _ hn, hp⟩

lemma process_event_ok (bpm tpb sb eb : ℚ) (acc : ℕ × ExtractState)
    (e : TrackEvent) (hn : notes_ok acc.2.active_notes)
    (hp : ∀ p ∈ acc.2.patterns, extracted_pattern_ok sb eb p) :
    notes_ok (process_event bpm tpb sb eb acc e).2.active_notes ∧
    ∀ p ∈ (process_event bpm tpb sb eb acc e).2.patterns,
      extracted_pattern_ok sb eb p := by
  unfold process_event
  cases hk : e.kind with
  | noteOn key vel =>
    dsimp only
    by_cases h0 : 0 < vel.val
    · rw [if_pos h0]
      refine ⟨?_, hp⟩
      apply notes_ok_insert _ _ _ _ hn
      constructor
      · exact_mod_cast h0
      · exact_mod_cast Nat.lt_succ_iff.mp vel.isLt
    · rw [if_neg h0]
      exact handle_note_off_ok bpm sb eb _ _ _ hn hp
  | noteOff key vel =>
    dsimp only
    exact handle_note_off_ok bpm sb eb _ _ _ hn hp
  | trackName n => exact ⟨hn, hp⟩
  | other => exact ⟨hn, hp⟩

lemma foldl_process_ok (bpm tpb sb eb : ℚ) (events : List TrackEvent) :
    ∀ acc : ℕ × ExtractState, notes_ok acc.2.active_notes →
    (∀ p ∈ acc.2.patterns, extracted_pattern_ok sb eb p) →
    notes_ok (events.foldl (process_event bpm tpb sb eb) acc).2.active_notes ∧
    ∀ p ∈ (events.foldl (process_event bpm tpb sb eb) acc).2.patterns,
      extracted_pattern_ok sb eb p := by
  induction events with
  | nil => exact fun acc hn hp => ⟨hn, hp⟩
  | cons e rest ih =>
    intro acc hn hp
    rw [List.foldl_cons]
    have h := process_event_ok bpm tpb sb eb acc e hn hp
    exact ih _ h.1 h.2

lemma process_track_events_ok (bpm tpb sb eb : ℚ) (events : List TrackEvent)
    (st : ExtractState) (hn : notes_ok st.active_notes)
    (hp : ∀ p ∈ st.patterns, extracted_pattern_ok sb eb p) :
    notes_ok (process_track_events bpm tpb sb eb events st).active_notes ∧
    ∀ p ∈ (process_track_events bpm tpb sb eb events st).patterns,
      extracted_pattern_ok sb eb p :=
  foldl_process_ok bpm tpb sb eb events (0, st) hn hp

/-- C10: every pattern the MIDI extraction returns for the window
`[start_beat, end_beat)` is a pure MIDI trigger (`sound` and `loop_name`
unset, `midi_note` set), its `beats` is a singleton lying in
`[0, end_beat - start_beat)` on the quarter-beat grid shifted by
`start_beat`, and its velocity is a MIDI `u7` velocity rescaled by
`100 / 127`, hence in `(0, 100]`. -/
lemma tracks_foldl_ok (tname : String) (bpm tpb sb eb : ℚ)
    (tracks : List (List TrackEvent)) :
    ∀ st : ExtractState, notes_ok st.active_notes →
      (∀ q ∈ st.patterns, extracted_pattern_ok sb eb q) →
      notes_ok (tracks.foldl (fun st track =>
        if track_found track tname then
          process_track_events bpm tpb sb eb track st
        else st) st).active_notes ∧
      ∀ q ∈ (tracks.foldl (fun st track =>
        if track_found track tname then
          process_track_events bpm tpb sb eb track st
        else st) st).patterns, extracted_pattern_ok sb eb q := by
  induction tracks with
  | nil => exact fun st hn hq => ⟨hn, hq⟩
  | cons t rest ih =>
    intro st hn hq
    rw [List.foldl_cons]
    by_cases hf : track_found t tname
    · rw [if_pos hf]
      have h := process_track_events_ok bpm tpb sb eb t st hn hq
      exact ih _ h.1 h.2
    · rw [if_neg hf]
      exact ih st hn hq

/-- C10: every pattern the MIDI extraction returns for the window
`[start_beat, end_beat)` is a pure MIDI trigger (`sound` and `loop_name`
unset, `midi_note` set), its `beats` is a singleton lying in
`[0, end_beat - start_beat)` on the quarter-beat grid shifted by
`start_beat`, and its velocity is a MIDI `u7` velocity rescaled by
`100 / 127`, hence in `(0, 100]`. -/
theorem C10_midi_extraction_shape (tname : String) (bpm tpb sb eb : ℚ)
    (tracks : List (List TrackEvent)) (p : Pattern)
    (hp : p ∈ read_midi_and_extract_pattern tname bpm tpb sb eb tracks) :
    extracted_pattern_ok sb eb p := by
  unfold read_midi_and_extract_pattern at hp
  exact (tracks_foldl_ok tname bpm tpb sb eb tracks ⟨[], []⟩
    (fun e he => absurd he (List.not_mem_nil e))
    (fun q hq => absurd hq (List.not_mem_nil q))).2 p hp

/-- C10 (witness): a one-note track (note 60, velocity 100, half-second
duration at 120 bpm, 480 ticks per beat) extracts one pattern, and that
pattern satisfies the C10 shape for the window `[0, 4)`. -/
theorem C10_midi_extraction_shape_witness :
    extracted_pattern_ok 0 4 ⟨none, none, some 60, [0], 10000/127, 1/2⟩ :=
  C10_midi_extraction_shape "lead" 120 480 0 4 [demo_track] _ (by
    have h : read_midi_and_extract_pattern "lead" 120 480 0 4 [demo_track]
        = [⟨none, none, some 60, [0], 10000/127, 1/2⟩] := by
      simp only [read_midi_and_extract_pattern, demo_track, track_found,
        process_track_events, process_event, handle_note_off, alist_lookup,
        alist_insert, alist_erase, roundAway, List.foldl_cons, List.foldl_nil,
        List.any_cons, List.any_nil]
      norm_num
    rw [h]
    exact List.mem_singleton.mpr rfl)
